import Mathlib

/-!
Shallow embedding of the collaboration core of the Cloud Code Editor
single-page application (`src/App.js`): resource key resolution,
visibility filtering of store snapshots, presence roster computation,
chat unread aggregation, chat send, document save, project deletion and
remote-selection decorations.  Optional fields of Firestore documents are
modelled with `Option`; JavaScript falsiness of strings (the empty string
is falsy) and of numbers (0 is falsy) is modelled explicitly at each use
site, following the source expression being embedded.
-/

namespace CloudCodeEditor

/-! ## Resource keys (`fileKeyFor`, App.js lines 110-115) -/

structure FileRec where
  name : String
  ownerId : Option String
  projectId : Option String
deriving DecidableEq, Repr

/-- JavaScript `a || b` on an optional string: absent and the empty string
are both falsy. -/
def orDefault (o : Option String) (d : String) : String :=
  match o with
  | none => d
  | some s => if s = "" then d else s

/-- JavaScript truthiness of an optional string (used by
`file.projectId ? ... : ...`). -/
def strTruthy (o : Option String) : Bool :=
  match o with
  | none => false
  | some s => s != ""

/-- Effective owner id: `file.ownerId || user?.uid || "unknown"`. -/
def effectiveOwner (viewer : Option String) (f : FileRec) : String :=
  orDefault f.ownerId (orDefault viewer ("unknown"))

/-- Canonical resource key (`fileKeyFor`): the join key for the
presence, chat and typing streams of a file. -/
def fileKeyFor (viewer : Option String) (f : FileRec) : String :=
  if strTruthy f.projectId then
    "project:" ++ effectiveOwner viewer f ++ ":" ++ f.projectId.getD ("") ++ ":" ++ f.name
  else
    "standalone:" ++ effectiveOwner viewer f ++ ":" ++ f.name

/-! ## Visibility filter (App.js lines 182-215 and 463-471)

A snapshot document is mapped with `{ id, ownerId, isPublic, parentType,
...data }`: the spread re-installs any stored field over the computed
one, so the effective value of each field is the stored value when the
field is present and the computed fallback otherwise. -/

structure RawDoc where
  id : String
  pathOwner : String
  pathHasProjects : Bool
  ownerId : Option String
  isPublic : Option Bool
  parentType : Option String
deriving DecidableEq, Repr

/-- Effective owner: stored `data.ownerId` when present, else the path
segment `pathParts[1]` that encodes the owner. -/
def effOwnerId (d : RawDoc) : String := d.ownerId.getD d.pathOwner

/-- Effective visibility: stored `data.isPublic` when present, else
`data.isPublic !== false` evaluates to `true`. -/
def effIsPublic (d : RawDoc) : Bool := d.isPublic.getD true

/-- Effective parent type: stored `data.parentType` when present, else
derived from whether the document path contains a projects segment. -/
def effParentType (d : RawDoc) : String :=
  d.parentType.getD (if d.pathHasProjects then "project" else "standalone")

/-- Visibility predicate `p.isPublic || p.ownerId === user.uid`. -/
def visPass (viewer : String) (d : RawDoc) : Bool :=
  effIsPublic d || effOwnerId d == viewer

/-- Filter applied to the projects listing snapshot (line 192). -/
def projectsFilter (viewer : String) (docs : List RawDoc) : List RawDoc :=
  docs.filter (fun d => visPass viewer d)

/-- Filter applied to the standalone files listing snapshot (line 205). -/
def standaloneFilesFilter (viewer : String) (docs : List RawDoc) : List RawDoc :=
  docs.filter (fun d => effParentType d == "standalone" && visPass viewer d)

/-- Filter applied to an expanded project's files snapshot (line 470). -/
def projectFilesFilter (viewer : String) (docs : List RawDoc) : List RawDoc :=
  docs.filter (fun d => visPass viewer d)

/-! ## Presence roster (App.js lines 240-302) -/

structure Selection where
  startLineNumber : Nat
  startColumn : Nat
  endLineNumber : Nat
  endColumn : Nat
deriving DecidableEq, Repr

structure PresenceRecord where
  uid : String
  displayName : String
  photoURL : String
  selection : Option Selection
  lastActive : Option Int
deriving DecidableEq, Repr

/-- `u.lastActive?.toMillis ? u.lastActive.toMillis() : 0`. -/
def lastActiveMillis (r : PresenceRecord) : Int := r.lastActive.getD 0

def presenceTTL : Int := 30000

/-- TTL filter of a presence snapshot: keep records whose age is
strictly below the TTL (line 285-288). -/
def rosterFilter (now : Int) (docs : List PresenceRecord) : List PresenceRecord :=
  docs.filter (fun u => decide (now - lastActiveMillis u < presenceTTL))

/-- Sorting by user id, modelling
`.sort((a, b) => (a.uid || "").localeCompare(b.uid || ""))`
as a deterministic comparison sort on the uid strings. -/
def insertByUid (x : PresenceRecord) : List PresenceRecord → List PresenceRecord
  | [] => [x]
  | y :: ys => if x.uid ≤ y.uid then x :: y :: ys else y :: insertByUid x ys

def sortByUid : List PresenceRecord → List PresenceRecord
  | [] => []
  | x :: xs => insertByUid x (sortByUid xs)

/-- The roster computed from a presence snapshot at a given time:
TTL-filtered, then sorted by uid (lines 282-289). -/
def computeRoster (now : Int) (docs : List PresenceRecord) : List PresenceRecord :=
  sortByUid (rosterFilter now docs)

/-- Lookup in `new Map(a.map((u) => [u.uid, u]))`: for a duplicated key
the later entry wins, hence the last matching element. -/
def mapLookup (a : List PresenceRecord) (uid : String) : Option PresenceRecord :=
  (a.filter (fun v => v.uid == uid)).getLast?

/-- `sameViewerList` (lines 269-279): same length and, for every entry of
the new list, an entry of the previous list with the same uid, display
name and photo URL. -/
def sameViewerList (a b : List PresenceRecord) : Bool :=
  (a.length == b.length) &&
    b.all (fun u =>
      match mapLookup a u.uid with
      | none => false
      | some prev => prev.displayName == u.displayName && prev.photoURL == u.photoURL)

/-- One presence-snapshot callback pass (lines 281-295): compute the
roster; when it is structurally identical to the previous one, keep the
previous list and report no state update, otherwise install the new
list and report an update. -/
def processPresenceSnapshot (now : Int) (docs prev : List PresenceRecord) :
    List PresenceRecord × Bool :=
  let list := computeRoster now docs
  if sameViewerList prev list then (prev, false) else (list, true)

/-! ## Global unread aggregation (App.js lines 340-366) -/

structure ChatMsg where
  uid : String
  fileKey : String
  createdAt : Option Int
deriving DecidableEq, Repr

/-- `data.createdAt?.toMillis ? data.createdAt.toMillis() : 0`. -/
def msgMillis (m : ChatMsg) : Int := m.createdAt.getD 0

/-- Bookmark read `Number(localStorage.getItem(storageKey) || "0")`:
the stored value when present, else 0. -/
def lookupLastSeen (store : String → Option Int) (k : String) : Int :=
  (store k).getD 0

/-- Fold mirroring the `snapshot.docs.forEach` loop of the unread
aggregation callback: skip messages by the local user, then count a
message when its creation time is strictly above the bookmark of its
resource. -/
def globalUnread (me : String) (store : String → Option Int) (msgs : List ChatMsg) : Nat :=
  msgs.foldl
    (fun count m =>
      if m.uid == me then count
      else if lookupLastSeen store m.fileKey < msgMillis m then count + 1 else count)
    0

/-- Declarative count following the specification wording: the number of
messages not authored by the local user whose creation time is strictly
greater than the bookmark of the message's resource, the bookmark
defaulting to 0 when absent. -/
def specUnreadCount (me : String) (store : String → Option Int) (msgs : List ChatMsg) : Nat :=
  msgs.countP (fun m => decide (m.uid ≠ me ∧ lookupLastSeen store m.fileKey < msgMillis m))

/-! ## Chat send (`sendChat`, App.js lines 372-391) -/

structure SentMsg where
  uid : String
  text : String
deriving DecidableEq, Repr

structure ChatState where
  chatText : String
  messages : List SentMsg
deriving DecidableEq, Repr

/-- JavaScript `String.prototype.trim`: drop leading and trailing
whitespace. -/
def jsTrim (s : String) : String :=
  String.mk (((s.data.dropWhile Char.isWhitespace).reverse.dropWhile Char.isWhitespace).reverse)

/-- One `sendChat` invocation: returns the updated local chat state and
the number of message writes issued to the store.  The guard
`if (!user || !currentFile)` is the `hasUserAndFile` flag, and
`const text = chatText.trim(); if (!text) return;` rejects text whose
trim is empty without issuing a write. -/
def sendChat (hasUserAndFile : Bool) (me : String) (st : ChatState) : ChatState × Nat :=
  if !hasUserAndFile then (st, 0)
  else
    let text := jsTrim st.chatText
    if text = "" then (st, 0)
    else (⟨"", st.messages ++ [⟨me, text⟩]⟩, 1)

/-! ## Document save (`saveFile`, App.js lines 498-532) -/

structure EditorState where
  code : String
  savedAt : Option Int
deriving DecidableEq, Repr

/-- One `saveFile(newCode)` invocation: `setCode(newCode)` always runs
first; when a user and a current file exist a persist write is issued,
and `setSavedAt(Date.now())` runs only when that write acknowledges —
the catch branch leaves `savedAt` untouched. -/
def saveFile (st : EditorState) (hasUserAndFile : Bool) (writeOk : Bool) (now : Int)
    (newCode : String) : EditorState :=
  let st1 : EditorState := ⟨newCode, st.savedAt⟩
  if hasUserAndFile then
    if writeOk then ⟨newCode, some now⟩ else st1
  else st1

/-- Opening a file (`openStandaloneFile` / `openProjectFile`): load the
content and clear the saved indicator (`setSavedAt(null)`). -/
def openFile (content : String) : EditorState := ⟨content, none⟩

/-- A sequence of edits applied by `saveFile`; each edit carries the new
content, whether its persist write acknowledged, and its wall-clock
time. -/
def runEdits (st : EditorState) (hasUserAndFile : Bool)
    (edits : List (String × Bool × Int)) : EditorState :=
  edits.foldl (fun s e => saveFile s hasUserAndFile e.2.1 e.2.2 e.1) st

/-! ## Project deletion (`deleteProject`, App.js lines 614-651) -/

structure ProjectState where
  projectPresent : Bool
  files : List String
deriving DecidableEq, Repr

/-- One `deleteProject` run over a store oracle: every child file
deletion is issued (`Promise.all`), and the parent project document is
deleted only after all of them acknowledge; any rejection jumps to the
catch branch, which alerts and leaves the parent in place.  The result
is the new store state together with whether an error was reported. -/
def deleteProject (st : ProjectState) (deleteOk : String → Bool) (parentOk : Bool) :
    ProjectState × Bool :=
  let remaining := st.files.filter (fun f => !(deleteOk f))
  if st.files.all deleteOk then
    if parentOk then ({ projectPresent := false, files := [] }, false)
    else ({ projectPresent := st.projectPresent, files := remaining }, true)
  else
    ({ projectPresent := st.projectPresent, files := remaining }, true)

/-! ## Remote selection decorations (App.js lines 412-451) -/

/-- `(hash * 31 + uid.charCodeAt(i)) | 0`: 32-bit signed wrap-around. -/
def int32 (n : Int) : Int := (n + 2147483648) % 4294967296 - 2147483648

def colorHash (uid : String) : Int :=
  uid.data.foldl (fun h c => int32 (h * 31 + (c.toNat : Int))) 0

/-- `colors[Math.abs(hash) % colors.length]` over the palette
`["0", ..., "5"]`. -/
def colorFor (uid : String) : String :=
  toString ((colorHash uid).natAbs % 6)

structure DecoRange where
  startLine : Nat
  startCol : Nat
  endLine : Nat
  endCol : Nat
deriving DecidableEq, Repr

structure Deco where
  range : DecoRange
  isWholeLine : Bool
  className : String
deriving DecidableEq, Repr

/-- Coordinate clamping of a remote selection: `Math.max(1, x || fb)`
with JavaScript numeric falsiness of 0. -/
def clampSel (s : Selection) : DecoRange :=
  let startLine := max 1 s.startLineNumber
  let startCol := max 1 s.startColumn
  let endLine := max 1 (if s.endLineNumber = 0 then startLine else s.endLineNumber)
  let endCol := max 1 (if s.endColumn = 0 then startCol else s.endColumn)
  ⟨startLine, startCol, endLine, endCol⟩

/-- Full-line highlight at the selection's start line. -/
def lineDecoFor (u : PresenceRecord) (r : DecoRange) : Deco :=
  ⟨⟨r.startLine, 1, r.startLine, 1⟩, true, "presence-line presence-line-" ++ colorFor u.uid⟩

/-- Column-range highlight over the exact selection range. -/
def rangeDecoFor (u : PresenceRecord) (r : DecoRange) : Deco :=
  ⟨r, false, "presence-selection presence-selection-" ++ colorFor u.uid⟩

/-- Decorations contributed by one participant: nothing without a
selection; a line highlight always, plus a range highlight when the
selection is not a single point. -/
def decosFor (u : PresenceRecord) : List Deco :=
  match u.selection with
  | none => []
  | some s =>
    let r := clampSel s
    if r.startLine ≠ r.endLine ∨ r.startCol ≠ r.endCol then
      [lineDecoFor u r, rangeDecoFor u r]
    else
      [lineDecoFor u r]

/-- `presenceUsers.filter((u) => u.uid !== user?.uid)`: with no local
user every record passes. -/
def isRemote (localUid : Option String) (u : PresenceRecord) : Bool :=
  match localUid with
  | none => true
  | some v => u.uid != v

/-- The full decoration set recomputed from the roster. -/
def computeDecorations (localUid : Option String) (users : List PresenceRecord) : List Deco :=
  (users.filter (fun u => isRemote localUid u)).flatMap decosFor

end CloudCodeEditor

namespace CloudCodeEditor

/-! ## Helper lemmas -/

lemma perm_insertByUid (x : PresenceRecord) (l : List PresenceRecord) :
    List.Perm (insertByUid x l) (x :: l) := by
  induction l with
  | nil => simp [insertByUid]
  | cons y ys ih =>
    by_cases h : x.uid ≤ y.uid
    · simp [insertByUid, h]
    · simp only [insertByUid, if_neg h]
      exact (ih.cons y).trans (List.Perm.swap x y ys)

lemma perm_sortByUid (l : List PresenceRecord) : List.Perm (sortByUid l) l := by
  induction l with
  | nil => simp [sortByUid]
  | cons x xs ih =>
    exact (perm_insertByUid x (sortByUid xs)).trans (ih.cons x)

lemma mem_sortByUid (r : PresenceRecord) (l : List PresenceRecord) :
    r ∈ sortByUid l ↔ r ∈ l :=
  (perm_sortByUid l).mem_iff

/-! ## Claim theorems -/

/-- C1: a presence record of a snapshot is in the computed roster exactly
when its age `now - lastActive` is strictly below the 30000 ms TTL; in
particular a record whose age is exactly 30000 ms is excluded. -/
theorem claim1_roster_ttl (now : Int) (docs : List PresenceRecord) (r : PresenceRecord)
    (hr : r ∈ docs) :
    (r ∈ computeRoster now docs ↔ now - lastActiveMillis r < 30000)
    ∧ (now - lastActiveMillis r = 30000 → r ∉ computeRoster now docs) := by
  have hmem : r ∈ computeRoster now docs ↔ now - lastActiveMillis r < 30000 := by
    rw [computeRoster, mem_sortByUid, rosterFilter, List.mem_filter]
    simp [hr, presenceTTL]
  refine ⟨hmem, fun h hin => ?_⟩
  have := hmem.mp hin
  omega

/-- Witness for C1: a record whose age is exactly the TTL is not in the
roster. -/
theorem claim1_roster_ttl_witness :
    (⟨"u", "n", "", none, some 0⟩ : PresenceRecord) ∉
      computeRoster 30000 [⟨"u", "n", "", none, some 0⟩] :=
  (claim1_roster_ttl 30000 [⟨"u", "n", "", none, some 0⟩]
    ⟨"u", "n", "", none, some 0⟩ (by simp)).2 (by decide)

/-- C2: each of the three listing filters passes a record exactly when it
is in the snapshot, lies in the listing's scope, and satisfies the one
visibility predicate `isPublic or ownerId = viewer`; the effective owner
falls back to the path segment when the stored field is absent.  Hence a
record with `isPublic = false` and a different owner is never returned,
and a public record passes the visibility predicate regardless of
owner. -/
theorem claim2_visibility_filter (viewer : String) (docs : List RawDoc) (d : RawDoc) :
    (d ∈ projectsFilter viewer docs ↔
      d ∈ docs ∧ (effIsPublic d = true ∨ effOwnerId d = viewer))
    ∧ (d ∈ standaloneFilesFilter viewer docs ↔
      d ∈ docs ∧ effParentType d = "standalone" ∧ (effIsPublic d = true ∨ effOwnerId d = viewer))
    ∧ (d ∈ projectFilesFilter viewer docs ↔
      d ∈ docs ∧ (effIsPublic d = true ∨ effOwnerId d = viewer))
    ∧ (∀ (i pOwn : String) (hp : Bool) (pub : Option Bool) (pt : Option String),
      effOwnerId ⟨i, pOwn, hp, none, pub, pt⟩ = pOwn) := by
  refine ⟨?_, ?_, ?_, fun i pOwn hp pub pt => rfl⟩ <;>
    simp [projectsFilter, standaloneFilesFilter, projectFilesFilter, visPass,
      List.mem_filter, Bool.or_eq_true, and_assoc]

/-- C3: the project document is deleted only when every child file
deletion acknowledged; when any child deletion fails, the project
document stays and an error is reported; when everything acknowledges,
no file and no project document remain and no error is reported. -/
theorem claim3_delete_project (st : ProjectState) (ok : String → Bool) (pok : Bool)
    (hp : st.projectPresent = true) :
    ((deleteProject st ok pok).1.projectPresent = false → st.files.all ok = true)
    ∧ (st.files.all ok = false →
      (deleteProject st ok pok).1.projectPresent = true ∧ (deleteProject st ok pok).2 = true)
    ∧ (st.files.all ok = true → pok = true →
      (deleteProject st ok pok).1.projectPresent = false ∧
        (deleteProject st ok pok).1.files = [] ∧ (deleteProject st ok pok).2 = false) := by
  by_cases hall : st.files.all ok = true
  · by_cases hpok : pok = true
    · subst hpok
      simp [deleteProject, hall]
    · simp [deleteProject, hall, hp, Bool.eq_false_iff.mpr hpok]
  · have hall' : st.files.all ok = false := Bool.eq_false_iff.mpr hall
    simp [deleteProject, hall', hp]

/-- Witness for C3: with two files of which one deletion fails, the
project document survives and an error is reported. -/
theorem claim3_delete_project_witness :
    (deleteProject ⟨true, ["a", "b"]⟩ (fun f => f == "a") true).1.projectPresent = true ∧
      (deleteProject ⟨true, ["a", "b"]⟩ (fun f => f == "a") true).2 = true :=
  (claim3_delete_project ⟨true, ["a", "b"]⟩ (fun f => f == "a") true rfl).2.1 (by decide)

/-- Accumulator form of the unread aggregation loop. -/
lemma globalUnread_foldl (me : String) (store : String → Option Int) (msgs : List ChatMsg)
    (acc : Nat) :
    msgs.foldl
      (fun count m =>
        if m.uid == me then count
        else if lookupLastSeen store m.fileKey < msgMillis m then count + 1 else count)
      acc = acc + specUnreadCount me store msgs := by
  induction msgs generalizing acc with
  | nil => simp [specUnreadCount]
  | cons m t ih =>
    rw [List.foldl_cons, specUnreadCount, List.countP_cons]
    by_cases h1 : m.uid = me
    · simp only [h1, beq_self_eq_true, if_true]
      rw [ih]
      simp [specUnreadCount]
    · have h1b : (m.uid == me) = false := beq_eq_false_iff_ne.mpr h1
      by_cases h2 : lookupLastSeen store m.fileKey < msgMillis m
      · simp only [h1b, Bool.false_eq_true, if_false, if_pos h2]
        rw [ih]
        simp [specUnreadCount, h1, h2]
        omega
      · simp only [h1b, Bool.false_eq_true, if_false, if_neg h2]
        rw [ih]
        simp [specUnreadCount, h1, h2]

/-- C4: the global unread badge computed by the aggregation loop equals
the number of messages in the snapshot not authored by the local user
whose creation time is strictly greater than the bookmark of their
resource (the bookmark defaulting to 0 when absent); a message with
creation time at or below its resource's bookmark is never counted. -/
theorem claim4_global_unread (me : String) (store : String → Option Int)
    (msgs : List ChatMsg) :
    globalUnread me store msgs = specUnreadCount me store msgs := by
  rw [globalUnread, globalUnread_foldl]
  omega

/-- In a list whose uids are pairwise distinct, filtering on the uid of a
member yields exactly that member. -/
lemma filter_uid_singleton (l : List PresenceRecord)
    (hnd : (l.map (fun v => v.uid)).Nodup) (u : PresenceRecord) (hu : u ∈ l) :
    l.filter (fun v => v.uid == u.uid) = [u] := by
  induction l with
  | nil => cases hu
  | cons x xs ih =>
    rw [List.map_cons, List.nodup_cons] at hnd
    rcases List.mem_cons.mp hu with rfl | hmem
    · have hnil : xs.filter (fun v => v.uid == u.uid) = [] := by
        rw [List.filter_eq_nil_iff]
        intro v hv hbeq
        rw [beq_iff_eq] at hbeq
        exact hnd.1 (hbeq ▸ List.mem_map_of_mem _ hv)
      rw [List.filter_cons, if_pos (by simp), hnil]
    · have hne : (x.uid == u.uid) = false := by
        rw [beq_eq_false_iff_ne]
        intro he
        exact hnd.1 (he ▸ List.mem_map_of_mem _ hmem)
      rw [List.filter_cons, hne]
      simpa using ih hnd.2 hmem

lemma mapLookup_self (l : List PresenceRecord)
    (hnd : (l.map (fun v => v.uid)).Nodup) (u : PresenceRecord) (hu : u ∈ l) :
    mapLookup l u.uid = some u := by
  rw [mapLookup, filter_uid_singleton l hnd u hu]
  rfl

lemma sameViewerList_refl (l : List PresenceRecord)
    (hnd : (l.map (fun v => v.uid)).Nodup) : sameViewerList l l = true := by
  rw [sameViewerList, Bool.and_eq_true]
  refine ⟨by simp, ?_⟩
  rw [List.all_eq_true]
  intro u hu
  rw [mapLookup_self l hnd u hu]
  simp

lemma nodup_uid_computeRoster (now : Int) (docs : List PresenceRecord)
    (hnd : (docs.map (fun v => v.uid)).Nodup) :
    ((computeRoster now docs).map (fun v => v.uid)).Nodup := by
  have h1 : List.Sublist ((rosterFilter now docs).map (fun v => v.uid))
      (docs.map (fun v => v.uid)) :=
    (List.filter_sublist docs).map _
  have h2 : ((rosterFilter now docs).map (fun v => v.uid)).Nodup := hnd.sublist h1
  have h3 : List.Perm ((computeRoster now docs).map (fun v => v.uid))
      ((rosterFilter now docs).map (fun v => v.uid)) :=
    (perm_sortByUid (rosterFilter now docs)).map _
  exact h3.nodup_iff.mpr h2

/-- C5: roster recomputation is idempotent: for a fixed time, processing
the same presence snapshot a second time keeps the stored list and
reports no state update, the update being suppressed by the structural
comparison on uid, display name and photo URL.  Presence snapshots key
records by user id, so their uids are pairwise distinct. -/
theorem claim5_roster_idempotent (now : Int) (docs prev : List PresenceRecord)
    (hnd : (docs.map (fun v => v.uid)).Nodup) :
    processPresenceSnapshot now docs (processPresenceSnapshot now docs prev).1 =
      ((processPresenceSnapshot now docs prev).1, false) := by
  have hrefl : sameViewerList (computeRoster now docs) (computeRoster now docs) = true :=
    sameViewerList_refl _ (nodup_uid_computeRoster now docs hnd)
  by_cases h : sameViewerList prev (computeRoster now docs) = true
  · simp [processPresenceSnapshot, h]
  · simp [processPresenceSnapshot, h, hrefl]

/-- Witness for C5: a concrete snapshot processed twice from an empty
previous roster. -/
theorem claim5_roster_idempotent_witness :
    processPresenceSnapshot 0 [⟨"a", "n", "", none, some 0⟩]
        (processPresenceSnapshot 0 [⟨"a", "n", "", none, some 0⟩] []).1 =
      ((processPresenceSnapshot 0 [⟨"a", "n", "", none, some 0⟩] []).1, false) :=
  claim5_roster_idempotent 0 [⟨"a", "n", "", none, some 0⟩] [] (by decide)

/-- Key of a project-scoped file: its character data starts with 'p'. -/
lemma data_fileKey_project (viewer : Option String) (f : FileRec)
    (h : strTruthy f.projectId = true) :
    ∃ l : List Char, (fileKeyFor viewer f).data = 'p' :: l := by
  rw [fileKeyFor, if_pos h]
  simp only [String.data_append]
  simp only [List.cons_append, List.append_assoc]
  exact ⟨_, rfl⟩

/-- Key of a standalone file: its character data starts with 's'. -/
lemma data_fileKey_standalone (viewer : Option String) (f : FileRec)
    (h : strTruthy f.projectId = false) :
    ∃ l : List Char, (fileKeyFor viewer f).data = 's' :: l := by
  rw [fileKeyFor, if_neg (by simp [h])]
  simp only [String.data_append]
  simp only [List.cons_append, List.append_assoc]
  exact ⟨_, rfl⟩

/-- C6: the canonical resource key has exactly the project form for a
project-scoped file and the standalone form otherwise; it is a function
of the file's identity fields alone, and the two forms can never
coincide. -/
theorem claim6_resource_key_format (viewer : Option String) (f : FileRec) :
    (∀ p : String, f.projectId = some p → p ≠ "" →
      fileKeyFor viewer f =
        "project:" ++ effectiveOwner viewer f ++ ":" ++ p ++ ":" ++ f.name)
    ∧ (strTruthy f.projectId = false →
      fileKeyFor viewer f = "standalone:" ++ effectiveOwner viewer f ++ ":" ++ f.name)
    ∧ (∀ g : FileRec, f.ownerId = g.ownerId → f.projectId = g.projectId → f.name = g.name →
      fileKeyFor viewer f = fileKeyFor viewer g)
    ∧ (∀ g : FileRec, strTruthy f.projectId = true → strTruthy g.projectId = false →
      fileKeyFor viewer f ≠ fileKeyFor viewer g) := by
  refine ⟨?_, ?_, ?_, ?_⟩
  · intro p hproj hpne
    have ht : strTruthy f.projectId = true := by
      rw [hproj]
      simpa [strTruthy] using hpne
    rw [fileKeyFor, if_pos ht, hproj]
    rfl
  · intro h
    rw [fileKeyFor, if_neg (by simp [h])]
  · intro g h1 h2 h3
    simp [fileKeyFor, effectiveOwner, h1, h2, h3]
  · intro g hf hg heq
    obtain ⟨l1, hl1⟩ := data_fileKey_project viewer f hf
    obtain ⟨l2, hl2⟩ := data_fileKey_standalone viewer g hg
    rw [heq, hl2] at hl1
    simpa using congrArg List.head? hl1

/-- Witness for C6: project format at a concrete file. -/
theorem claim6_resource_key_format_witness :
    fileKeyFor none ⟨"a.js", some ("o"), some ("P")⟩ = "project:o:P:a.js" := by
  have h := (claim6_resource_key_format none ⟨"a.js", some ("o"), some ("P")⟩).1
    ("P") rfl (by decide)
  rw [h]
  decide

/-- After opening a file, a run of edits whose persist writes all fail
leaves the saved indicator unset. -/
lemma runEdits_all_fail (edits : List (String × Bool × Int)) :
    ∀ st : EditorState, st.savedAt = none → (∀ e ∈ edits, e.2.1 = false) →
      (runEdits st true edits).savedAt = none := by
  induction edits with
  | nil =>
    intro st hsa _
    simpa [runEdits] using hsa
  | cons e t ih =>
    intro st hsa h
    have he : e.2.1 = false := h e (by simp)
    have hst : (saveFile st true e.2.1 e.2.2 e.1).savedAt = none := by
      rw [he]
      simp [saveFile, hsa]
    have ht := ih (saveFile st true e.2.1 e.2.2 e.1) hst (fun x hx => h x (by simp [hx]))
    simpa [runEdits, List.foldl_cons] using ht

/-- C7: every edit updates the local code immediately; the saved
indicator is set exactly by an acknowledged persist write, a failed
write leaves it untouched, and after opening a file any run of edits
whose writes all fail leaves the indicator unset. -/
theorem claim7_saved_indicator (st : EditorState) (now : Int) (c : String) :
    ((saveFile st true true now c).code = c ∧ (saveFile st true true now c).savedAt = some now)
    ∧ ((saveFile st true false now c).code = c ∧
      (saveFile st true false now c).savedAt = st.savedAt)
    ∧ (∀ b : Bool, (saveFile st false b now c).code = c ∧
      (saveFile st false b now c).savedAt = st.savedAt)
    ∧ (∀ (content : String) (edits : List (String × Bool × Int)),
      (∀ e ∈ edits, e.2.1 = false) →
      (runEdits (openFile content) true edits).savedAt = none) := by
  refine ⟨?_, ?_, ?_, ?_⟩
  · exact ⟨by simp [saveFile], by simp [saveFile]⟩
  · exact ⟨by simp [saveFile], by simp [saveFile]⟩
  · intro b
    exact ⟨by simp [saveFile], by simp [saveFile]⟩
  · intro content edits h
    exact runEdits_all_fail edits (openFile content) rfl h

/-- Witness for C7: two consecutive failed saves after opening a file
leave the indicator unset. -/
theorem claim7_saved_indicator_witness :
    (runEdits (openFile ("x")) true [("y", false, 5), ("z", false, 6)]).savedAt = none :=
  (claim7_saved_indicator ⟨"", none⟩ 0 ("")).2.2.2 ("x")
    [("y", false, 5), ("z", false, 6)] (by decide)

/-- C8: sending with empty or whitespace-only text is rejected locally —
no write is issued and the chat state is unchanged; for non-whitespace
text exactly one message, carrying the trimmed text, is appended and the
composer is cleared. -/
theorem claim8_send_chat (me : String) (st : ChatState) :
    (jsTrim st.chatText = "" → sendChat true me st = (st, 0))
    ∧ (jsTrim st.chatText ≠ "" →
      (sendChat true me st).2 = 1 ∧
      (sendChat true me st).1.messages = st.messages ++ [⟨me, jsTrim st.chatText⟩] ∧
      (sendChat true me st).1.chatText = "") := by
  constructor
  · intro h
    simp [sendChat, h]
  · intro h
    simp [sendChat, h]

/-- Witness for C8: whitespace-only text leaves the state unchanged with
no write; non-blank text issues exactly one write. -/
theorem claim8_send_chat_witness :
    sendChat true ("me") ⟨"  ", []⟩ = (⟨"  ", []⟩, 0) ∧
      (sendChat true ("me") ⟨"hi", []⟩).2 = 1 :=
  ⟨(claim8_send_chat ("me") ⟨"  ", []⟩).1 (by decide),
    ((claim8_send_chat ("me") ⟨"hi", []⟩).2 (by decide)).1⟩

/-- C9: a remote participant with a selection contributes a full-line
highlight at the selection's start line to the computed decoration set,
and a range highlight over the exact column range exactly when the
selection spans more than a single point; a participant with no
selection contributes no decorations. -/
theorem claim9_decorations (localUid : Option String) (users : List PresenceRecord)
    (u : PresenceRecord) (s : Selection) (hu : u ∈ users)
    (hrem : isRemote localUid u = true) (hs : u.selection = some s) :
    lineDecoFor u (clampSel s) ∈ computeDecorations localUid users
    ∧ ((clampSel s).startLine ≠ (clampSel s).endLine ∨
        (clampSel s).startCol ≠ (clampSel s).endCol →
      rangeDecoFor u (clampSel s) ∈ computeDecorations localUid users)
    ∧ (rangeDecoFor u (clampSel s) ∈ decosFor u ↔
      ((clampSel s).startLine ≠ (clampSel s).endLine ∨
        (clampSel s).startCol ≠ (clampSel s).endCol))
    ∧ (∀ v : PresenceRecord, v.selection = none → decosFor v = []) := by
  have hufilter : u ∈ users.filter (fun w => isRemote localUid w) :=
    List.mem_filter.mpr ⟨hu, hrem⟩
  have hsub : ∀ dd ∈ decosFor u, dd ∈ computeDecorations localUid users := fun dd hdd =>
    List.mem_flatMap.mpr ⟨u, hufilter, hdd⟩
  have hdecos : decosFor u =
      if (clampSel s).startLine ≠ (clampSel s).endLine ∨
          (clampSel s).startCol ≠ (clampSel s).endCol then
        [lineDecoFor u (clampSel s), rangeDecoFor u (clampSel s)]
      else
        [lineDecoFor u (clampSel s)] := by
    simp [decosFor, hs]
  refine ⟨?_, ?_, ?_, ?_⟩
  · apply hsub
    rw [hdecos]
    split <;> simp
  · intro hne
    apply hsub
    rw [hdecos, if_pos hne]
    simp
  · rw [hdecos]
    constructor
    · intro hmem
      by_contra hpt
      rw [if_neg hpt] at hmem
      simp [lineDecoFor, rangeDecoFor] at hmem
    · intro hne
      rw [if_pos hne]
      simp
  · intro v hv
    simp [decosFor, hv]

/-- Witness for C9: a remote participant selecting lines 3-5 produces a
full-line decoration at line 3 in the decoration set. -/
theorem claim9_decorations_witness :
    lineDecoFor ⟨"x", "n", "", some ⟨3, 1, 5, 1⟩, none⟩ (clampSel ⟨3, 1, 5, 1⟩) ∈
      computeDecorations (some ("y")) [⟨"x", "n", "", some ⟨3, 1, 5, 1⟩, none⟩] :=
  (claim9_decorations (some ("y")) [⟨"x", "n", "", some ⟨3, 1, 5, 1⟩, none⟩]
    ⟨"x", "n", "", some ⟨3, 1, 5, 1⟩, none⟩ ⟨3, 1, 5, 1⟩ (by simp) (by decide) rfl).1

/-- C10: when the file's stored owner id is present and non-empty, the
resource key does not depend on which user is signed in. -/
theorem claim10_key_viewer_independent (f : FileRec) (v1 v2 : Option String) (o : String)
    (ho : f.ownerId = some o) (hne : o ≠ "") :
    fileKeyFor v1 f = fileKeyFor v2 f := by
  have heff : ∀ v : Option String, effectiveOwner v f = o := by
    intro v
    simp [effectiveOwner, ho, orDefault, hne]
  simp [fileKeyFor, heff]

/-- Witness for C10: two different signed-in users compute the same key
for an owned file. -/
theorem claim10_key_viewer_independent_witness :
    fileKeyFor (some ("v")) ⟨"a.js", some ("o"), none⟩ =
      fileKeyFor (some ("w")) ⟨"a.js", some ("o"), none⟩ :=
  claim10_key_viewer_independent ⟨"a.js", some ("o"), none⟩ (some ("v")) (some ("w"))
    ("o") rfl (by decide)

end CloudCodeEditor
